import Mathlib

/-!
Verification of the m357map ingest → resolve-location → merge pipeline.

The definitions below are shallow embeddings of the Python sources:
* `src/M357_MAP.py`               — `GeoCache`, `enhanced_geocode`, `is_valid_coords`,
                                     `process_feed_entry`, `metadata_location`, `merge_geojson_data`
* `src/masonic_analysis/M357_MAP.py` — `load_old_geojson`, `merge_features`, `save_merged_geojson`
* `src/combine_geojson.py`        — `remove_duplicates`, `combine_geojson`
* `src/m357_map.py`               — `generate_geojson`
* `src/wikipedia_scraper.py`      — `CacheManager` keyed location cache, `enhanced_geocoding`

Coordinates are modelled as rationals (the Python code only ever compares and stores
them; no float-specific behaviour is involved in any property considered here).
Python dicts are modelled as ordered association lists with CPython semantics:
assigning to an existing key updates the value in place, a fresh key is appended.
-/

/-- A GeoJSON feature as the merge code sees it: the `properties["link"]` field used as
merge key (total here; the sources default a missing link to `""`/`None`), the rest of
the properties bag represented by `title`, and an optional point geometry `(lon, lat)`. -/
structure Feature where
  link : String
  title : String
  geometry : Option (Rat × Rat)
deriving DecidableEq, Repr

/-- CPython `d[k] = v` on an insertion-ordered dict: update in place if the key exists,
append otherwise.  All dicts in the sources are built from `{}` by assignment only, so
keys are unique and the first matching entry is the only one. -/
def dictInsert {α : Type} (d : List (String × α)) (k : String) (v : α) : List (String × α) :=
  match d with
  | [] => [(k, v)]
  | p :: rest => if p.1 = k then (k, v) :: rest else p :: dictInsert rest k v

/-- CPython `d.get(k)`: value of the first entry with key `k`. -/
def dictLookup {α : Type} (d : List (String × α)) (k : String) : Option α :=
  match d with
  | [] => none
  | p :: rest => if p.1 = k then some p.2 else dictLookup rest k

/-- The key sequence of a dict. -/
def dictKeys {α : Type} (d : List (String × α)) : List String :=
  d.map Prod.fst

/-- The loop `for feat in fc.features: merged_dict[link(feat)] = feat` from
`merge_features` (src/masonic_analysis/M357_MAP.py lines 240-246). -/
def insertFeatures (d : List (String × Feature)) (fs : List Feature) : List (String × Feature) :=
  fs.foldl (fun acc f => dictInsert acc f.link f) d

/-- `merge_features` (src/masonic_analysis/M357_MAP.py lines 233-247): build a dict keyed
by `properties["link"]` from the old features, update it with the new features, return
the dict's values. -/
def merge_features (old_fc new_fc : List Feature) : List Feature :=
  (insertFeatures (insertFeatures [] old_fc) new_fc).map Prod.snd

/-- The merge core of `merge_geojson_data` (src/M357_MAP.py lines 265-268): keep every
existing feature, and append only those new features whose link is not among the
existing links. -/
def merge_geojson_data (existing new_data : List Feature) : List Feature :=
  let existing_ids := existing.map Feature.link
  existing ++ new_data.filter (fun f => decide (f.link ∉ existing_ids))

/-- `remove_duplicates` (src/combine_geojson.py lines 14-17): drop new features whose
`link` already occurs among the existing features. -/
def remove_duplicates (existing_features new_features : List Feature) : List Feature :=
  let existing_links := existing_features.map Feature.link
  new_features.filter (fun f => decide (f.link ∉ existing_links))

/-- The state of a persisted GeoJSON file, distinguished by how the loading code in
the sources reacts to it: the file is absent; it is unreadable as JSON
(`json.JSONDecodeError` on `json.load`); it is valid JSON whose top level is not a
dict, so subscripting the loaded value with `"features"` raises `TypeError`; it is a
JSON dict without a `"features"` key (`KeyError`); or it is well-formed. -/
inductive FileState
  | absent
  | notJson
  | jsonNonDict
  | dictNoFeatures
  | wellFormed (features : List Feature)
deriving DecidableEq, Repr

/-- Outcome of `load_old_geojson`: a loaded prior collection, or an uncaught exception
propagating out of the function and aborting the run. -/
inductive LoadResult
  | loaded (features : List Feature)
  | uncaughtTypeError
deriving DecidableEq, Repr

/-- `load_old_geojson` (src/masonic_analysis/M357_MAP.py lines 223-231): a missing
file yields the empty collection, and the `except` clause catches exactly
`(FileNotFoundError, json.JSONDecodeError, KeyError)` — so a JSON parse failure or a
dict lacking `"features"` also yields the empty collection.  But when the prior file
holds valid JSON whose top level is not a dict, `data["features"]` raises a
`TypeError`, which is not in the except tuple: it propagates uncaught and aborts the
run. -/
def load_old_geojson : FileState → LoadResult
  | .absent => .loaded []
  | .notJson => .loaded []
  | .jsonNonDict => .uncaughtTypeError
  | .dictNoFeatures => .loaded []
  | .wellFormed fs => .loaded fs

/-- Outcome of one run of the `combine_geojson.py` entry point. -/
inductive RunOutcome
  | completed (combined : List Feature)
  | exitFailure (code : Nat)
deriving DecidableEq, Repr

/-- `combine_geojson` (src/combine_geojson.py lines 19-51): both inputs must open and
load as valid FeatureCollections; any exception on the way (missing file, parse error,
structure check) reaches the catch-all handler which logs and calls `sys.exit(1)`. -/
def combine_geojson : FileState → FileState → RunOutcome
  | .wellFormed existing, .wellFormed new_data =>
      .completed (existing ++ remove_duplicates existing new_data)
  | _, _ => .exitFailure 1

/-- The record the batch itself associates to a link: the value the Python dict holds
after inserting all batch features in order, i.e. the last occurrence. -/
def batchLookup (fs : List Feature) (k : String) : Option Feature :=
  fs.reverse.find? (fun f => decide (f.link = k))

/-! ### Dict lemmas -/

theorem dictLookup_insert {α : Type} (d : List (String × α)) (k k' : String) (v : α) :
    dictLookup (dictInsert d k v) k' = if k' = k then some v else dictLookup d k' := by
  induction d with
  | nil =>
    by_cases h : k' = k
    · subst h; simp [dictInsert, dictLookup]
    · simp [dictInsert, dictLookup, h, Ne.symm h]
  | cons p rest ih =>
    by_cases hp : p.1 = k
    · simp only [dictInsert, if_pos hp]
      by_cases h : k' = k
      · subst h; simp [dictLookup]
      · simp [dictLookup, h, Ne.symm h, hp]
    · simp only [dictInsert, if_neg hp]
      by_cases h : k' = k
      · subst h
        simp [dictLookup, ih, hp]
      · simp [dictLookup, ih, h]

theorem dictKeys_insert {α : Type} (d : List (String × α)) (k : String) (v : α) :
    dictKeys (dictInsert d k v) = if k ∈ dictKeys d then dictKeys d else dictKeys d ++ [k] := by
  induction d with
  | nil => simp [dictInsert, dictKeys]
  | cons p rest ih =>
    by_cases hp : p.1 = k
    · simp [dictInsert, if_pos hp, dictKeys, hp]
    · simp only [dictInsert, if_neg hp]
      by_cases hm : k ∈ dictKeys rest
      · have hmem : k ∈ dictKeys (p :: rest) := by simp [dictKeys]; right; simpa [dictKeys] using hm
        simp only [dictKeys, List.map_cons] at ih ⊢
        simp [ih, hm, hmem, dictKeys] at *
        simp [hm]
      · have hmem : k ∉ dictKeys (p :: rest) := by
          simp only [dictKeys, List.map_cons, List.mem_cons]
          push_neg
          exact ⟨fun h => hp h.symm, by simpa [dictKeys] using hm⟩
        simp only [dictKeys, List.map_cons] at ih hmem ⊢
        simp [ih, hm, hmem, dictKeys] at *
        simp [hm]

theorem dictLookup_eq_none_of_not_mem {α : Type} (d : List (String × α)) (k : String)
    (h : k ∉ dictKeys d) : dictLookup d k = none := by
  induction d with
  | nil => rfl
  | cons p rest ih =>
    simp only [dictKeys, List.map_cons, List.mem_cons] at h
    push_neg at h
    simp only [dictLookup, if_neg (fun hh : p.1 = k => h.1 hh.symm)]
    exact ih (by simpa [dictKeys] using h.2)

theorem mem_keys_of_dictLookup_isSome {α : Type} (d : List (String × α)) (k : String)
    (h : (dictLookup d k).isSome) : k ∈ dictKeys d := by
  by_contra hk
  rw [dictLookup_eq_none_of_not_mem d k hk] at h
  simp at h

theorem dictKeys_nodup_insert {α : Type} (d : List (String × α)) (k : String) (v : α)
    (h : (dictKeys d).Nodup) : (dictKeys (dictInsert d k v)).Nodup := by
  rw [dictKeys_insert]
  by_cases hm : k ∈ dictKeys d
  · simpa [hm] using h
  · simp only [hm, if_false]
    refine List.Nodup.append h (List.nodup_singleton k) ?_
    intro a ha hb
    simp at hb
    exact hm (hb ▸ ha)

theorem mem_dictInsert {α : Type} (d : List (String × α)) (k : String) (v : α)
    (p : String × α) (h : p ∈ dictInsert d k v) : p ∈ d ∨ p = (k, v) := by
  induction d with
  | nil => exact .inr (by simpa [dictInsert] using h)
  | cons q rest ih =>
    simp only [dictInsert] at h
    by_cases hq : q.1 = k
    · simp only [if_pos hq, List.mem_cons] at h
      rcases h with h | h
      · exact .inr h
      · exact .inl (by simp [h])
    · simp only [if_neg hq, List.mem_cons] at h
      rcases h with h | h
      · exact .inl (by simp [h])
      · rcases ih h with h' | h'
        · exact .inl (by simp [h'])
        · exact .inr h'

/-! ### Lemmas about `insertFeatures` and the merge dict -/

theorem dictKeys_nil {α : Type} : dictKeys ([] : List (String × α)) = [] := rfl

theorem dictKeys_cons {α : Type} (p : String × α) (d : List (String × α)) :
    dictKeys (p :: d) = p.1 :: dictKeys d := rfl

theorem dictLookup_nil {α : Type} (k : String) : dictLookup ([] : List (String × α)) k = none := rfl

theorem dictLookup_cons {α : Type} (p : String × α) (d : List (String × α)) (k : String) :
    dictLookup (p :: d) k = if p.1 = k then some p.2 else dictLookup d k := rfl

theorem option_or_self_assoc {α : Type} (a b : Option α) : (a.or (a.or b)) = a.or b := by
  cases a <;> rfl

theorem insertFeatures_cons (d : List (String × Feature)) (f : Feature) (fs : List Feature) :
    insertFeatures d (f :: fs) = insertFeatures (dictInsert d f.link f) fs := rfl

/-- A dict arising in `merge_features`: keys are unique, and every entry's key is the
link of its value. -/
def dictWF (d : List (String × Feature)) : Prop :=
  (dictKeys d).Nodup ∧ ∀ p ∈ d, p.1 = p.2.link

theorem dictWF_nil : dictWF [] := ⟨List.nodup_nil, by simp⟩

theorem dictWF_cons_iff (p : String × Feature) (d : List (String × Feature)) :
    dictWF (p :: d) ↔ (p.1 ∉ dictKeys d ∧ p.1 = p.2.link) ∧ dictWF d := by
  constructor
  · intro ⟨hnd, hent⟩
    rw [dictKeys_cons] at hnd
    have h' := List.nodup_cons.mp hnd
    exact ⟨⟨h'.1, hent p (by simp)⟩, h'.2, fun q hq => hent q (by simp [hq])⟩
  · intro ⟨⟨hm, hk⟩, hnd, hent⟩
    refine ⟨?_, ?_⟩
    · rw [dictKeys_cons]
      exact List.nodup_cons.mpr ⟨hm, hnd⟩
    · intro q hq
      rcases List.mem_cons.mp hq with rfl | hq'
      · exact hk
      · exact hent q hq'

theorem dictWF_insert (d : List (String × Feature)) (f : Feature) (h : dictWF d) :
    dictWF (dictInsert d f.link f) := by
  refine ⟨dictKeys_nodup_insert _ _ _ h.1, ?_⟩
  intro p hp
  rcases mem_dictInsert _ _ _ _ hp with h' | h'
  · exact h.2 p h'
  · simp [h']

theorem dictWF_insertFeatures (d : List (String × Feature)) (fs : List Feature)
    (h : dictWF d) : dictWF (insertFeatures d fs) := by
  induction fs generalizing d with
  | nil => exact h
  | cons f fs ih => exact ih _ (dictWF_insert d f h)

theorem batchLookup_cons (f : Feature) (fs : List Feature) (k : String) :
    batchLookup (f :: fs) k =
      (batchLookup fs k).or (if f.link = k then some f else none) := by
  rw [batchLookup, batchLookup, List.reverse_cons, List.find?_append, List.find?_singleton]
  simp only [decide_eq_true_eq]

theorem batchLookup_eq_none (fs : List Feature) (k : String) (h : k ∉ fs.map Feature.link) :
    batchLookup fs k = none := by
  rw [batchLookup, List.find?_eq_none]
  intro f hf
  simp only [decide_eq_true_eq]
  intro hlink
  exact h (by rw [← hlink]; exact List.mem_map_of_mem _ (List.mem_reverse.mp hf))

theorem batchLookup_isSome_of_mem (fs : List Feature) (k : String)
    (h : k ∈ fs.map Feature.link) : (batchLookup fs k).isSome := by
  obtain ⟨f, hf, hlink⟩ := List.mem_map.mp h
  rw [batchLookup, List.find?_isSome]
  exact ⟨f, List.mem_reverse.mpr hf, by simp [hlink]⟩

theorem dictLookup_insertFeatures (d : List (String × Feature)) (fs : List Feature)
    (k : String) :
    dictLookup (insertFeatures d fs) k = (batchLookup fs k).or (dictLookup d k) := by
  induction fs generalizing d with
  | nil => simp [insertFeatures, batchLookup, List.foldl]
  | cons f fs ih =>
    rw [insertFeatures_cons, ih, batchLookup_cons]
    cases hb : batchLookup fs k with
    | some g => simp
    | none =>
      simp only [Option.none_or]
      rw [dictLookup_insert]
      by_cases h : f.link = k
      · rw [if_pos h.symm, if_pos h, Option.or_some]
      · rw [if_neg (fun hh => h hh.symm), if_neg h, Option.none_or]

theorem mem_dictKeys_insert {α : Type} (d : List (String × α)) (k k' : String) (v : α) :
    k' ∈ dictKeys (dictInsert d k v) ↔ k' ∈ dictKeys d ∨ k' = k := by
  rw [dictKeys_insert]
  by_cases hm : k ∈ dictKeys d
  · simp only [hm, if_true]
    constructor
    · exact .inl
    · rintro (h | h)
      · exact h
      · exact h ▸ hm
  · simp [hm]

theorem mem_dictKeys_insertFeatures (d : List (String × Feature)) (fs : List Feature)
    (k : String) :
    k ∈ dictKeys (insertFeatures d fs) ↔ k ∈ dictKeys d ∨ k ∈ fs.map Feature.link := by
  induction fs generalizing d with
  | nil => simp [insertFeatures]
  | cons f fs ih =>
    rw [insertFeatures_cons, ih, mem_dictKeys_insert]
    simp only [List.map_cons, List.mem_cons]
    tauto

theorem dictKeys_insertFeatures_stable (d : List (String × Feature)) (fs : List Feature)
    (h : ∀ f ∈ fs, f.link ∈ dictKeys d) : dictKeys (insertFeatures d fs) = dictKeys d := by
  induction fs generalizing d with
  | nil => rfl
  | cons f fs ih =>
    rw [insertFeatures_cons]
    have h1 : f.link ∈ dictKeys d := h f (by simp)
    have hkeys : dictKeys (dictInsert d f.link f) = dictKeys d := by
      rw [dictKeys_insert, if_pos h1]
    rw [ih _ (fun g hg => by rw [hkeys]; exact h g (by simp [hg])), hkeys]

theorem insertFeatures_cons_fresh (p : String × Feature) (d : List (String × Feature))
    (fs : List Feature) (h : ∀ f ∈ fs, f.link ≠ p.1) :
    insertFeatures (p :: d) fs = p :: insertFeatures d fs := by
  induction fs generalizing d with
  | nil => rfl
  | cons f fs ih =>
    rw [insertFeatures_cons, insertFeatures_cons]
    have hne : ¬ p.1 = f.link := fun hh => (h f (by simp)) hh.symm
    have hstep : dictInsert (p :: d) f.link f = p :: dictInsert d f.link f := by
      simp only [dictInsert, if_neg hne]
    rw [hstep]
    exact ih _ (fun g hg => h g (by simp [hg]))

theorem insertFeatures_values (d : List (String × Feature)) (h : dictWF d) :
    insertFeatures [] (d.map Prod.snd) = d := by
  induction d with
  | nil => rfl
  | cons p rest ih =>
    obtain ⟨⟨hm, hk⟩, hrest⟩ := (dictWF_cons_iff p rest).mp h
    have hfresh : ∀ f ∈ rest.map Prod.snd, f.link ≠ p.1 := by
      intro f hf
      obtain ⟨q, hq, rfl⟩ := List.mem_map.mp hf
      rw [← hrest.2 q hq]
      intro hqq
      exact hm (by rw [← hqq]; exact List.mem_map_of_mem _ hq)
    have hhead : (p.2.link, p.2) = p := by
      rw [← hk]
    calc insertFeatures [] ((p :: rest).map Prod.snd)
        = insertFeatures [(p.2.link, p.2)] (rest.map Prod.snd) := by
          rw [List.map_cons, insertFeatures_cons]; rfl
      _ = insertFeatures [p] (rest.map Prod.snd) := by rw [hhead]
      _ = p :: insertFeatures [] (rest.map Prod.snd) := insertFeatures_cons_fresh p [] _ hfresh
      _ = p :: rest := by rw [ih hrest]

theorem dict_ext (d₁ d₂ : List (String × Feature)) (h₁ : dictWF d₁) (h₂ : dictWF d₂)
    (hk : dictKeys d₁ = dictKeys d₂) (hl : ∀ k, dictLookup d₁ k = dictLookup d₂ k) :
    d₁ = d₂ := by
  induction d₁ generalizing d₂ with
  | nil =>
    cases d₂ with
    | nil => rfl
    | cons q rest₂ => simp [dictKeys_nil, dictKeys_cons] at hk
  | cons p rest ih =>
    cases d₂ with
    | nil => simp [dictKeys_nil, dictKeys_cons] at hk
    | cons q rest₂ =>
      rw [dictKeys_cons, dictKeys_cons] at hk
      obtain ⟨hkey, hkeys⟩ := List.cons_eq_cons.mp hk
      obtain ⟨⟨hm₁, he₁⟩, hrest₁⟩ := (dictWF_cons_iff p rest).mp h₁
      obtain ⟨⟨hm₂, he₂⟩, hrest₂⟩ := (dictWF_cons_iff q rest₂).mp h₂
      have hval := hl p.1
      rw [dictLookup_cons, dictLookup_cons, if_pos rfl, if_pos hkey.symm] at hval
      have hsnd : p.2 = q.2 := by simpa using hval
      have hhead : p = q := by
        cases p
        cases q
        simp only at hkey hsnd
        rw [hkey, hsnd]
      have hltail : ∀ k, dictLookup rest k = dictLookup rest₂ k := by
        intro k
        by_cases hkp : p.1 = k
        · subst hkp
          rw [dictLookup_eq_none_of_not_mem _ _ hm₁, hkey,
              dictLookup_eq_none_of_not_mem _ _ hm₂]
        · have hlk := hl k
          rw [dictLookup_cons, dictLookup_cons, if_neg hkp, if_neg (hkey ▸ hkp)] at hlk
          exact hlk
      rw [hhead, ih rest₂ hrest₁ hrest₂ hkeys hltail]

theorem values_filter_eq (d : List (String × Feature)) (k : String) (h : dictWF d) :
    (d.map Prod.snd).filter (fun f => decide (f.link = k)) = (dictLookup d k).toList := by
  induction d with
  | nil => rfl
  | cons p rest ih =>
    obtain ⟨⟨hm, hk1⟩, hrest⟩ := (dictWF_cons_iff p rest).mp h
    rw [List.map_cons, List.filter_cons, dictLookup_cons]
    by_cases hc : p.2.link = k
    · have hnone : dictLookup rest k = none := by
        apply dictLookup_eq_none_of_not_mem
        rw [hk1, hc] at hm
        exact hm
      rw [if_pos (by simp [hc]), if_pos (hk1.trans hc), ih hrest, hnone]
      rfl
    · rw [if_neg (by simp [hc]), if_neg (by rw [hk1]; exact hc), ih hrest]

theorem merge_features_filter (old_fc new_fc : List Feature) (k : String) :
    (merge_features old_fc new_fc).filter (fun f => decide (f.link = k)) =
      ((batchLookup new_fc k).or (batchLookup old_fc k)).toList := by
  have hwf : dictWF (insertFeatures (insertFeatures [] old_fc) new_fc) :=
    dictWF_insertFeatures _ _ (dictWF_insertFeatures _ _ dictWF_nil)
  rw [merge_features, values_filter_eq _ _ hwf, dictLookup_insertFeatures,
      dictLookup_insertFeatures, dictLookup_nil, Option.or_none]

theorem insertFeatures_idem (d : List (String × Feature)) (fs : List Feature)
    (h : dictWF d) : insertFeatures (insertFeatures d fs) fs = insertFeatures d fs := by
  apply dict_ext _ _ (dictWF_insertFeatures _ _ (dictWF_insertFeatures _ _ h))
    (dictWF_insertFeatures _ _ h)
  · apply dictKeys_insertFeatures_stable
    intro f hf
    exact (mem_dictKeys_insertFeatures _ _ _).mpr (.inr (List.mem_map_of_mem _ hf))
  · intro k
    rw [dictLookup_insertFeatures, dictLookup_insertFeatures, option_or_self_assoc]

theorem values_map_link (d : List (String × Feature)) (h : dictWF d) :
    (d.map Prod.snd).map Feature.link = dictKeys d := by
  rw [List.map_map, dictKeys]
  exact List.map_congr_left (fun p hp => (h.2 p hp).symm)

theorem merge_features_idem_eq (old_fc new_fc : List Feature) :
    merge_features (merge_features old_fc new_fc) new_fc = merge_features old_fc new_fc := by
  have hwf0 : dictWF (insertFeatures [] old_fc) := dictWF_insertFeatures _ _ dictWF_nil
  have hwfM : dictWF (insertFeatures (insertFeatures [] old_fc) new_fc) :=
    dictWF_insertFeatures _ _ hwf0
  simp only [merge_features]
  rw [insertFeatures_values _ hwfM, insertFeatures_idem _ _ hwf0]

theorem merge_geojson_data_no_new (existing batch : List Feature)
    (h : ∀ f ∈ batch, f.link ∈ existing.map Feature.link) :
    merge_geojson_data existing batch = existing := by
  simp only [merge_geojson_data]
  have hnil : batch.filter (fun f => decide (f.link ∉ existing.map Feature.link)) = [] := by
    rw [List.filter_eq_nil_iff]
    intro f hf
    simp only [decide_eq_true_eq, not_not]
    exact h f hf
  rw [hnil, List.append_nil]

theorem mem_links_merge_geojson_data (existing batch : List Feature) (f : Feature)
    (hf : f ∈ batch) : f.link ∈ (merge_geojson_data existing batch).map Feature.link := by
  simp only [merge_geojson_data]
  rw [List.map_append, List.mem_append]
  by_cases hs : f.link ∈ existing.map Feature.link
  · exact .inl hs
  · exact .inr (List.mem_map_of_mem _ (List.mem_filter.mpr ⟨hf, by simpa using hs⟩))

theorem merge_geojson_data_filter_of_mem (existing batch : List Feature) (jd : String)
    (h : jd ∈ existing.map Feature.link) :
    (merge_geojson_data existing batch).filter (fun f => decide (f.link = jd)) =
      existing.filter (fun f => decide (f.link = jd)) := by
  simp only [merge_geojson_data]
  rw [List.filter_append]
  have hnil : (batch.filter (fun f => decide (f.link ∉ existing.map Feature.link))).filter
      (fun f => decide (f.link = jd)) = [] := by
    rw [List.filter_eq_nil_iff]
    intro f hf
    simp only [decide_eq_true_eq]
    intro hfl
    have h2 := (List.mem_filter.mp hf).2
    simp only [decide_eq_true_eq] at h2
    exact h2 (hfl ▸ h)
  rw [hnil, List.append_nil]

/-! ### Claim C1 — last-write-wins merge -/

/-- C1 counterexample input: prior dataset record, id "X", title "Old". -/
def oldRecordX : Feature := ⟨"X", "Old", none⟩

/-- C1 counterexample input: batch record, id "X", title "New". -/
def newRecordX : Feature := ⟨"X", "New", none⟩

/-- C1: counterexample.  The claim says merge maps every id present in the batch to the
batch's record, for both cited implementations.  `merge_geojson_data`
(src/M357_MAP.py lines 256-271) does the opposite: with a prior dataset holding id "X"
with title "Old" and a batch holding id "X" with title "New", the merged data still
holds only the old record — the batch's record is dropped, not applied. -/
theorem merge_geojson_data_not_last_write_wins :
    merge_geojson_data [oldRecordX] [newRecordX] = [oldRecordX] ∧
      oldRecordX.title = "Old" ∧ newRecordX.title = "New" ∧ oldRecordX ≠ newRecordX := by
  refine ⟨by decide, rfl, rfl, by decide⟩

/-- C1 (amended): last-write-wins holds for `merge_features`
(src/masonic_analysis/M357_MAP.py): for every id present in the batch, the merged
collection has exactly one record with that id, namely the batch's (last) record for
it.  `merge_geojson_data` (src/M357_MAP.py) instead keeps the prior dataset's records
unchanged for an id it already holds and drops the batch's record for it
(first-write-wins). -/
theorem merge_last_write_wins_only_in_merge_features
    (old_fc new_fc existing batch : List Feature) (id jd : String)
    (h1 : id ∈ new_fc.map Feature.link) (h2 : jd ∈ existing.map Feature.link) :
    (merge_features old_fc new_fc).filter (fun f => decide (f.link = id)) =
        (batchLookup new_fc id).toList ∧
      (batchLookup new_fc id).isSome = true ∧
      (merge_geojson_data existing batch).filter (fun f => decide (f.link = jd)) =
        existing.filter (fun f => decide (f.link = jd)) := by
  have hsome := batchLookup_isSome_of_mem new_fc id h1
  obtain ⟨g, hg⟩ := Option.isSome_iff_exists.mp hsome
  refine ⟨?_, hsome, merge_geojson_data_filter_of_mem existing batch jd h2⟩
  rw [merge_features_filter, hg, Option.or_some]

/-- C1 witness: instantiation of the amended theorem at concrete datasets. -/
theorem merge_last_write_wins_only_in_merge_features_witness :
    (merge_features [⟨"a", "old", none⟩] [⟨"a", "new", none⟩]).filter
        (fun f => decide (f.link = "a")) = (batchLookup [⟨"a", "new", none⟩] "a").toList ∧
      (batchLookup [⟨"a", "new", none⟩] "a").isSome = true ∧
      (merge_geojson_data [⟨"b", "s", none⟩] []).filter (fun f => decide (f.link = "b")) =
        [(⟨"b", "s", none⟩ : Feature)].filter (fun f => decide (f.link = "b")) :=
  merge_last_write_wins_only_in_merge_features [⟨"a", "old", none⟩] [⟨"a", "new", none⟩]
    [⟨"b", "s", none⟩] [] "a" "b" (by decide) (by decide)

/-! ### Claim C3 — retention of ids absent from the batch -/

/-- C3: Retention.  For every id present in the prior dataset and absent from the
batch, both cited merge implementations keep the id present with its prior record
unchanged: in `merge_features` the merged records with that id are exactly the prior
dict's record for it, and in `merge_geojson_data` the merged records with that id are
exactly the prior dataset's records; in both the id is still present, so no entry is
removed by a run. -/
theorem merge_retains_ids_absent_from_batch
    (old_fc new_fc existing batch : List Feature) (id jd : String)
    (h1 : id ∈ old_fc.map Feature.link) (h2 : id ∉ new_fc.map Feature.link)
    (h3 : jd ∈ existing.map Feature.link) (_h4 : jd ∉ batch.map Feature.link) :
    (merge_features old_fc new_fc).filter (fun f => decide (f.link = id)) =
        (batchLookup old_fc id).toList ∧
      (batchLookup old_fc id).isSome = true ∧
      id ∈ (merge_features old_fc new_fc).map Feature.link ∧
      (merge_geojson_data existing batch).filter (fun f => decide (f.link = jd)) =
        existing.filter (fun f => decide (f.link = jd)) ∧
      jd ∈ (merge_geojson_data existing batch).map Feature.link := by
  have hwfM : dictWF (insertFeatures (insertFeatures [] old_fc) new_fc) :=
    dictWF_insertFeatures _ _ (dictWF_insertFeatures _ _ dictWF_nil)
  refine ⟨?_, batchLookup_isSome_of_mem old_fc id h1, ?_, ?_, ?_⟩
  · rw [merge_features_filter, batchLookup_eq_none new_fc id h2, Option.none_or]
  · rw [merge_features, values_map_link _ hwfM, mem_dictKeys_insertFeatures,
        mem_dictKeys_insertFeatures]
    exact .inl (.inr h1)
  · exact merge_geojson_data_filter_of_mem existing batch jd h3
  · simp only [merge_geojson_data]
    rw [List.map_append, List.mem_append]
    exact .inl h3

/-- C3 witness: instantiation of the retention theorem at concrete datasets. -/
theorem merge_retains_ids_absent_from_batch_witness :
    (merge_features [⟨"a", "old", none⟩] [⟨"c", "new", none⟩]).filter
        (fun f => decide (f.link = "a")) = (batchLookup [⟨"a", "old", none⟩] "a").toList ∧
      (batchLookup [⟨"a", "old", none⟩] "a").isSome = true ∧
      "a" ∈ (merge_features [⟨"a", "old", none⟩] [⟨"c", "new", none⟩]).map Feature.link ∧
      (merge_geojson_data [⟨"b", "s", none⟩] [⟨"c", "new", none⟩]).filter
          (fun f => decide (f.link = "b")) =
        [(⟨"b", "s", none⟩ : Feature)].filter (fun f => decide (f.link = "b")) ∧
      "b" ∈ (merge_geojson_data [⟨"b", "s", none⟩] [⟨"c", "new", none⟩]).map Feature.link :=
  merge_retains_ids_absent_from_batch [⟨"a", "old", none⟩] [⟨"c", "new", none⟩]
    [⟨"b", "s", none⟩] [⟨"c", "new", none⟩] "a" "b" (by decide) (by decide) (by decide) (by decide)

/-! ### Claim C8 — idempotent merge -/

/-- C8: merging the same batch twice yields the same dataset as merging it once, for
both cited merge implementations. -/
theorem merge_idempotent (old_fc new_fc existing batch : List Feature) :
    merge_features (merge_features old_fc new_fc) new_fc = merge_features old_fc new_fc ∧
      merge_geojson_data (merge_geojson_data existing batch) batch =
        merge_geojson_data existing batch :=
  ⟨merge_features_idem_eq old_fc new_fc,
    merge_geojson_data_no_new _ _ (fun f hf => mem_links_merge_geojson_data existing batch f hf)⟩

/-! ### Claim C5 — recoverability of the prior dataset file -/

/-- C5 (amended): recoverability of the prior dataset file is partial.
`load_old_geojson` (src/masonic_analysis/M357_MAP.py) recovers — proceeding with an
empty previous dataset — from a missing file, from a JSON parse failure, and from a
JSON dict lacking a `"features"` key; but on a prior file of valid JSON whose top
level is not a dict, `data["features"]` raises a `TypeError` that its except tuple
does not catch, and the run aborts.  `combine_geojson` (src/combine_geojson.py)
treats every missing or malformed input file as fatal: its catch-all handler logs the
exception and exits with failure status 1. -/
theorem prior_state_recovery_partial (fs : List Feature) (st : FileState) :
    load_old_geojson .absent = .loaded [] ∧
      load_old_geojson .notJson = .loaded [] ∧
      load_old_geojson .dictNoFeatures = .loaded [] ∧
      load_old_geojson .jsonNonDict = .uncaughtTypeError ∧
      load_old_geojson (.wellFormed fs) = .loaded fs ∧
      combine_geojson .absent st = .exitFailure 1 ∧
      combine_geojson .notJson st = .exitFailure 1 ∧
      combine_geojson .jsonNonDict st = .exitFailure 1 ∧
      combine_geojson .dictNoFeatures st = .exitFailure 1 := by
  refine ⟨rfl, rfl, rfl, rfl, rfl, ?_, ?_, ?_, ?_⟩ <;> cases st <;> rfl

/-- C5: counterexample.  The claim says every absent-or-unparsable prior-file state is
recoverable — the merge proceeds with an empty previous dataset, and the run never
aborts or exits with a failure status for this reason.  Two concrete such states
refute it: `combine_geojson` with a missing prior (existing) file exits with failure
status 1, and `load_old_geojson` on a prior file of valid JSON that is not a dict
(e.g. a JSON array) raises an uncaught `TypeError` instead of continuing with an
empty previous dataset. -/
theorem prior_state_failure_fatal :
    combine_geojson .absent (.wellFormed [⟨"X", "New", none⟩]) = .exitFailure 1 ∧
      load_old_geojson .jsonNonDict = .uncaughtTypeError :=
  ⟨rfl, rfl⟩

/-! ### The geocoding cache (`GeoCache`, src/M357_MAP.py lines 95-114) -/

/-- Python runtime errors that the cache code can raise. -/
inductive PyError
  | typeError
  | keyError
deriving DecidableEq, Repr

/-- CPython `dict.popitem`: a plain `dict`'s `popitem` accepts no arguments, so calling
it with the keyword argument `last` (as `GeoCache.set` does — `last` only exists on
`collections.OrderedDict`) raises `TypeError` before anything is popped.  A plain call
(`last := none`) pops the most recently inserted item, raising `KeyError` on an empty
dict. -/
def dictPopitem {α : Type} (d : List (String × α)) (last : Option Bool) :
    Except PyError ((String × α) × List (String × α)) :=
  match last with
  | some _ => .error .typeError
  | none =>
    match d.getLast? with
    | none => .error .keyError
    | some p => .ok (p, d.dropLast)

/-- `GeoCache` maximum size (`self.max_size = 500`, src/M357_MAP.py line 105). -/
def GeoCache.maxSize : Nat := 500

/-- `GeoCache.get` (src/M357_MAP.py lines 108-109): `self.cache.get(key)`. -/
def GeoCache.get (cache : List (String × (Rat × Rat))) (key : String) : Option (Rat × Rat) :=
  dictLookup cache key

/-- `GeoCache.set` (src/M357_MAP.py lines 111-114): when the cache has reached
`max_size` it first calls `self.cache.popitem(last=False)` — which on the plain dict
`self.cache` raises `TypeError` — and only otherwise performs `self.cache[key] = value`. -/
def GeoCache.set (cache : List (String × (Rat × Rat))) (key : String) (value : Rat × Rat) :
    Except PyError (List (String × (Rat × Rat))) :=
  if cache.length ≥ GeoCache.maxSize then
    match dictPopitem cache (some false) with
    | .error e => .error e
    | .ok (_, rest) => .ok (dictInsert rest key value)
  else
    .ok (dictInsert cache key value)

/-! ### Coordinate validation and the resolver (src/M357_MAP.py) -/

/-- `is_valid_coords` (src/M357_MAP.py lines 221-222). -/
def is_valid_coords (lon lat : Rat) : Bool :=
  decide (-180 ≤ lon) && decide (lon ≤ 180) && decide (-90 ≤ lat) && decide (lat ≤ 90)

/-- The two geocoding providers used by `enhanced_geocode`. -/
inductive Provider
  | nominatim
  | photon
deriving DecidableEq, Repr

/-- One outbound provider call, recording whether it went through the shared
`RateLimiter`-wrapped `geocode` callable (src/M357_MAP.py line 120) or was issued
directly with `requests` (lines 161-165). -/
structure ProviderCall where
  provider : Provider
  viaRateLimiter : Bool
deriving DecidableEq, Repr

/-- Outcome of the Nominatim call `geocode(location_text)`: the call raised, returned
`None`, or returned a location with the given coordinates. -/
inductive NomOutcome
  | raised
  | noResult
  | found (lon lat : Rat)
deriving DecidableEq, Repr

/-- Outcome of one Photon attempt `session.get(...)`: a `requests.RequestException`,
or an HTTP response with a status code and the parsed `features` list, each feature
contributing its `geometry.coordinates` pair `(lon, lat)`. -/
inductive PhotonAttempt
  | requestError
  | response (status : Nat) (features : List (Rat × Rat))
deriving DecidableEq, Repr

/-- The environment of one `enhanced_geocode` call: the Nominatim outcome and the
outcomes of the (at most `retries = 2`) Photon attempts. -/
structure GeocodeEnv where
  nominatim : NomOutcome
  photon1 : PhotonAttempt
  photon2 : PhotonAttempt
deriving DecidableEq, Repr

/-- Result of `enhanced_geocode`: the returned value, the cache afterwards, and the
trace of outbound provider calls made. -/
structure GeocodeResult where
  result : Option (Rat × Rat)
  cache : List (String × (Rat × Rat))
  calls : List ProviderCall
deriving DecidableEq, Repr

/-- What one iteration of the Photon retry loop (src/M357_MAP.py lines 159-175) does:
a request error or a non-200 status or an empty feature list continues the loop, a
feature with invalid coordinates breaks out of it, and a feature with valid
coordinates is the successful result. -/
inductive PhotonStep
  | skip
  | breakLoop
  | success (lon lat : Rat)
deriving DecidableEq, Repr

/-- Classification of one Photon attempt per the loop body. -/
def photonAttemptStep : PhotonAttempt → PhotonStep
  | .requestError => .skip
  | .response status features =>
    if status = 200 then
      match features with
      | [] => .skip
      | c :: _ => if is_valid_coords c.1 c.2 then .success c.1 c.2 else .breakLoop
    else .skip

/-- The store-and-return step shared by both providers:
`geo_cache.set(location_text, coords)` followed by returning the coordinates.  A
`TypeError` raised by `GeoCache.set` on a full cache propagates to the outer `except`
handler, which logs and falls through to `return None`. -/
def storeResult (cache : List (String × (Rat × Rat))) (location_text : String)
    (lon lat : Rat) (callsMade : List ProviderCall) : GeocodeResult :=
  match GeoCache.set cache location_text (lon, lat) with
  | .ok cache' => ⟨some (lon, lat), cache', callsMade⟩
  | .error _ => ⟨none, cache, callsMade⟩

/-- The Photon phase of `enhanced_geocode` (the `for _ in range(retries)` loop with
`retries = 2`): each attempt is one direct (un-rate-limited) outbound call; a success
stores the coordinates in the cache and returns them. -/
def photonPhase (cache : List (String × (Rat × Rat))) (location_text : String)
    (env : GeocodeEnv) (calls : List ProviderCall) : GeocodeResult :=
  match photonAttemptStep env.photon1 with
  | .success lon lat => storeResult cache location_text lon lat (calls ++ [⟨.photon, false⟩])
  | .breakLoop => ⟨none, cache, calls ++ [⟨.photon, false⟩]⟩
  | .skip =>
    match photonAttemptStep env.photon2 with
    | .success lon lat =>
      storeResult cache location_text lon lat (calls ++ [⟨.photon, false⟩, ⟨.photon, false⟩])
    | _ => ⟨none, cache, calls ++ [⟨.photon, false⟩, ⟨.photon, false⟩]⟩

/-- `enhanced_geocode` (src/M357_MAP.py lines 142-179).  An empty hint returns `None`
immediately; the cache is consulted under the raw `location_text`; on a miss the
rate-limited Nominatim call is made first, its result validated with
`is_valid_coords` and cached under the raw `location_text`; otherwise the Photon
fallback loop runs with direct `requests` calls.  Any exception (including a
`TypeError` from `GeoCache.set`) is caught by the outer handler, which logs and
returns `None`. -/
def enhanced_geocode (cache : List (String × (Rat × Rat))) (location_text : String)
    (env : GeocodeEnv) : GeocodeResult :=
  if location_text = "" then ⟨none, cache, []⟩
  else
    match GeoCache.get cache location_text with
    | some c => ⟨some c, cache, []⟩
    | none =>
      match env.nominatim with
      | .raised => ⟨none, cache, [⟨.nominatim, true⟩]⟩
      | .noResult => photonPhase cache location_text env [⟨.nominatim, true⟩]
      | .found lon lat =>
        if is_valid_coords lon lat then
          storeResult cache location_text lon lat [⟨.nominatim, true⟩]
        else photonPhase cache location_text env [⟨.nominatim, true⟩]

/-! ### The wikipedia_scraper resolver (`enhanced_geocoding`, lines 334-379) -/

/-- Removes the lazily matched parenthesised segments that
`re.sub(r"\(.*?\)", "", s)` removes (inputs here contain no unmatched `(`). -/
def stripParens (s : String) : String :=
  String.mk (go s.data false)
where
  go : List Char → Bool → List Char
    | [], _ => []
    | c :: cs, true => if c = ')' then go cs false else go cs true
    | c :: cs, false => if c = '(' then go cs true else c :: go cs false

/-- A small transliteration in the spirit of `unidecode`: maps the accented letters
occurring in this repository's hint texts to ASCII and leaves other characters
unchanged (on ASCII input it is the identity, as `unidecode` is). -/
def unidecodeChar (c : Char) : Char :=
  if c = 'á' ∨ c = 'à' ∨ c = 'â' ∨ c = 'ä' then 'a'
  else if c = 'é' ∨ c = 'è' ∨ c = 'ê' ∨ c = 'ë' then 'e'
  else if c = 'í' ∨ c = 'ì' ∨ c = 'î' ∨ c = 'ï' then 'i'
  else if c = 'ó' ∨ c = 'ò' ∨ c = 'ô' ∨ c = 'ö' then 'o'
  else if c = 'ú' ∨ c = 'ù' ∨ c = 'û' ∨ c = 'ü' then 'u'
  else if c = 'ñ' then 'n'
  else c

/-- `unidecode` on a string, per `unidecodeChar`. -/
def unidecodeStr (s : String) : String :=
  String.mk (s.data.map unidecodeChar)

/-- Python `str.strip()`: drop leading and trailing spaces (the hint texts involved
here contain no other whitespace kinds). -/
def pyStrip (s : String) : String :=
  String.mk (((s.data.dropWhile (fun c => c = ' ')).reverse.dropWhile (fun c => c = ' ')).reverse)

/-- The cleaning applied to `place_name` in `enhanced_geocoding`
(src/wikipedia_scraper.py lines 348-349):
`clean_place = unidecode(re.sub(r"\(.*?\)", "", place_name).strip())`. -/
def cleanPlace (place_name : String) : String :=
  unidecodeStr (pyStrip (stripParens place_name))


/-- Result of `enhanced_geocoding` (src/wikipedia_scraper.py): the returned value (in
`(lat, lon)` order, as the source returns it), the locations cache afterwards, and the
query strings of the provider calls issued. -/
structure WikiGeocodeResult where
  result : Option (Rat × Rat)
  cache : List (String × (Rat × Rat))
  queries : List String
deriving DecidableEq, Repr

/-- `enhanced_geocoding` (src/wikipedia_scraper.py lines 334-379).  The cache is
consulted (`CacheManager.get_location`) and later written (`set_location`) under the
RAW `place_name`; only the provider query uses the cleaned text.  Photon's first
feature is taken as `(lat, lon) = (coords[1], coords[0])` and stored with NO range
validation; when Photon yields nothing, Nominatim's first result `(lat, lon)` is used,
likewise unvalidated.  A `none` response models a service exception or unusable JSON,
caught per service by the inner handler. -/
def wiki_enhanced_geocoding (cache : List (String × (Rat × Rat))) (place_name : String)
    (photonResp : Option (List (Rat × Rat))) (nominatimResp : Option (List (Rat × Rat))) :
    WikiGeocodeResult :=
  if place_name = "" then ⟨none, cache, []⟩
  else
    match dictLookup cache place_name with
    | some c => ⟨some c, cache, []⟩
    | none =>
      let clean_place := cleanPlace place_name
      match photonResp with
      | some (c :: _) =>
        ⟨some (c.2, c.1), dictInsert cache place_name (c.2, c.1), [clean_place]⟩
      | _ =>
        match nominatimResp with
        | some (j :: _) => ⟨some j, dictInsert cache place_name j, [clean_place, clean_place]⟩
        | _ => ⟨none, cache, [clean_place, clean_place]⟩

/-- Collapses runs of spaces to a single space; the flag records whether the previous
kept character was a space. -/
def collapseWSAux : List Char → Bool → List Char
  | [], _ => []
  | c :: cs, prevSpace =>
    if c = ' ' then
      if prevSpace then collapseWSAux cs true else ' ' :: collapseWSAux cs true
    else c :: collapseWSAux cs false

/-- Modelled from the spec: the canonicalized form of a hint described by the spec's
"Cache Entry" and resolver step 2 — trimmed, bracketed/parenthetical content removed,
diacritics transliterated to ASCII, whitespace collapsed.  The sources contain no such
cache-key normalization (that is what claim C7 is about); this definition only
expresses the spec's normalization so the claim can be stated. -/
def specNormalizedHint (hint : String) : String :=
  String.mk (collapseWSAux (unidecodeStr (pyStrip (stripParens hint))).data false)

/-! ### Feed entries (`process_feed_entry`, src/M357_MAP.py lines 181-215) -/

/-- `re.sub('<[^>]+>', '', s)`: removes HTML-tag segments (inputs here contain no
unmatched `<`). -/
def stripTags (s : String) : String :=
  String.mk (go s.data false)
where
  go : List Char → Bool → List Char
    | [], _ => []
    | c :: cs, true => if c = '>' then go cs false else go cs true
    | c :: cs, false => if c = '<' then go cs true else c :: go cs false

/-- `format_date` (src/M357_MAP.py lines 224-229): a timestamp in the shape
`%Y-%m-%dT%H:%M:%SZ` is reformatted as `%Y-%m-%d %H:%M UTC`; on a parse failure the
first 19 characters are kept.  The digit-pattern check models `strptime`'s format
match; `strptime`'s calendar range validation is not modelled (no claim depends on
it). -/
def format_date (date_str : String) : String :=
  match date_str.data with
  | [y1, y2, y3, y4, '-', m1, m2, '-', d1, d2, 'T', h1, h2, ':', n1, n2, ':', s1, s2, 'Z'] =>
    if [y1, y2, y3, y4, m1, m2, d1, d2, h1, h2, n1, n2, s1, s2].all Char.isDigit then
      String.mk [y1, y2, y3, y4, '-', m1, m2, '-', d1, d2, ' ', h1, h2, ':', n1, n2] ++ " UTC"
    else
      String.mk (date_str.data.take 19)
  | _ => String.mk (date_str.data.take 19)

/-- An RSS entry as `process_feed_entry` reads it (fields that `entry.get` defaults
when missing are total here); `geo` holds the `geo_lat`/`geo_long` metadata pair
`(lat, lon)` when both attributes are present and parse as floats. -/
structure RssEntry where
  title : String
  link : String
  published : String
  summary : String
  author : String
  source : String
  geo : Option (Rat × Rat)
deriving DecidableEq, Repr

/-- `metadata_location` (src/M357_MAP.py lines 231-241): metadata coordinates passing
`is_valid_coords` give `(lon, lat)`; invalid or missing metadata gives `None`. -/
def metadata_location (e : RssEntry) : Option (Rat × Rat) :=
  match e.geo with
  | some (lat, lon) => if is_valid_coords lon lat then some (lon, lat) else none
  | none => none

/-- A feature produced by `process_feed_entry`; the `emotions` property is produced by
the out-of-scope NLP collaborator (spec §1) and is not modelled. -/
structure FeedFeature where
  geometry : Option (Rat × Rat)
  title : String
  link : String
  published : String
  description : String
  author : String
  source : String
deriving DecidableEq, Repr

/-- `process_feed_entry` (src/M357_MAP.py lines 181-215).  The location strategies run
in order: `metadata_location`, then `content_location` (regex extraction over
title+summary plus `enhanced_geocode`; its outcome is the collaborator parameter
`contentLocation`, matching the spec's treatment of hint extraction as an external
collaborator).  The same properties are built whatever the strategies return; `coords`
only decides the geometry, so an unresolved entry keeps a `None` geometry. -/
def process_feed_entry (contentLocation : RssEntry → Option (Rat × Rat)) (e : RssEntry) :
    FeedFeature :=
  let summary := stripTags e.summary
  let coords :=
    match metadata_location e with
    | some c => some c
    | none => contentLocation e
  { geometry := coords
    title := pyStrip e.title
    link := e.link
    published := format_date e.published
    description := if summary.length > 500 then summary.take 500 ++ "..." else summary
    author := e.author
    source := e.source }

/-! ### `generate_geojson` (src/m357_map.py lines 128-164) -/

/-- A master-data entry of `m357_map.py` (`image_url` may be `None`; `lat`/`lon` stay
`None` when no location hint resolved). -/
structure MasterEntry where
  title : String
  summary : String
  link : String
  published : String
  image_url : Option String
  lat : Option Rat
  lon : Option Rat
deriving DecidableEq, Repr

/-- A feature of the `new_data.geojson` output of `m357_map.py`. -/
structure M357Feature where
  title : String
  description : String
  published : String
  image_url : Option String
  coordinates : Rat × Rat
deriving DecidableEq, Repr

/-- `generate_geojson` (src/m357_map.py lines 128-164): only entries with BOTH `lat`
and `lon` set produce a feature; the summary is truncated at 200 characters and the
link folded into the description text. -/
def generate_geojson (data : List MasterEntry) : List M357Feature :=
  data.filterMap (fun item =>
    match item.lat, item.lon with
    | some lat, some lon =>
      let summary :=
        if item.summary.length > 200 then item.summary.take 200 ++ "..." else item.summary
      some { title := item.title
             description := summary ++ "\n\n[[" ++ item.link ++ "|Ver la fuente]]"
             published := item.published
             image_url := item.image_url
             coordinates := (lon, lat) }
    | _, _ => none)

/-! ### Persistence plans (claim C2) -/

/-- File-system contents: path → file content (`none` = no file). -/
abbrev FS := String → Option String

/-- Update one path's content. -/
def setFile (fs : FS) (p : String) (c : Option String) : FS :=
  fun q => if q = p then c else fs q

/-- The file operations the persistence code performs. -/
inductive FsOp
  | write (path content : String)
  | replace (src dst : String)

/-- Effect of one completed operation: `write` is `open(path, "w")` plus a full dump;
`replace` is `os.replace`, atomically moving `src` over `dst`. -/
def applyOp (fs : FS) : FsOp → FS
  | .write p c => setFile fs p (some c)
  | .replace src dst => fun q => if q = dst then fs src else if q = src then none else fs q

/-- `Interrupted fs ops fs'` holds when executing `ops` from state `fs` can be
interrupted leaving state `fs'`: before any operation, in the middle of a `write`
(leaving any prefix of the intended content on disk), or after completing the first
operation.  `replace` (`os.replace`) is atomic and cannot be left half-done. -/
inductive Interrupted : FS → List FsOp → FS → Prop
  | stop (fs : FS) (ops : List FsOp) : Interrupted fs ops fs
  | midWrite (fs : FS) (p c : String) (rest : List FsOp) (pre : String)
      (h : pre.data.isPrefixOf c.data = true) :
      Interrupted fs (.write p c :: rest) (setFile fs p (some pre))
  | step (fs : FS) (op : FsOp) (rest : List FsOp) (fs' : FS)
      (h : Interrupted (applyOp fs op) rest fs') :
      Interrupted fs (op :: rest) fs'

/-- The persistence plan of `combine_geojson` (src/combine_geojson.py lines 36-45):
dump the combined collection to `output_path + ".tmp"`, then `os.replace` the
temporary file over `output_path`. -/
def combine_geojson_persist_plan (output_path content : String) : List FsOp :=
  [.write (output_path ++ ".tmp") content, .replace (output_path ++ ".tmp") output_path]

/-- The persistence step of `merge_geojson_data` (src/M357_MAP.py lines 270-271):
`open(OUTPUT_FILE, "w")` and dump, directly on the target file. -/
def merge_geojson_data_persist_plan (content : String) : List FsOp :=
  [.write "masonic_alerts.geojson" content]

/-- The persistence step of `save_merged_geojson`
(src/masonic_analysis/M357_MAP.py lines 249-254): `open(path, "w")` and dump,
directly on the target file. -/
def save_merged_geojson_persist_plan (path content : String) : List FsOp :=
  [.write path content]

/-! ### Claim C9 — `GeoCache.set` at capacity -/

/-- C9: once the cache holds `max_size = 500` entries, every `GeoCache.set` raises
`TypeError` — it calls `popitem(last=False)` on the plain dict `self.cache`, and plain
`dict.popitem` accepts no `last` keyword — instead of evicting the oldest entry; `set`
succeeds (performing the insertion) exactly while the cache holds fewer than 500
entries. -/
theorem geoCache_set_raises_at_capacity (cache : List (String × (Rat × Rat)))
    (key : String) (value : Rat × Rat) :
    (cache.length ≥ GeoCache.maxSize → GeoCache.set cache key value = .error .typeError) ∧
      (cache.length < GeoCache.maxSize →
        GeoCache.set cache key value = .ok (dictInsert cache key value)) := by
  constructor
  · intro h
    simp only [GeoCache.set, if_pos h]
    rfl
  · intro h
    simp only [GeoCache.set, if_neg (by omega : ¬ cache.length ≥ GeoCache.maxSize)]

/-- C9 witness: a cache at the 500-entry capacity rejects `set` with `TypeError`,
while the empty cache accepts it. -/
theorem geoCache_set_raises_at_capacity_witness :
    GeoCache.set (List.replicate 500 ("a", ((0 : Rat), (0 : Rat)))) "b" (1, 1) =
        .error .typeError ∧
      GeoCache.set [] "b" (1, 1) = .ok (dictInsert [] "b" (1, 1)) :=
  ⟨(geoCache_set_raises_at_capacity _ "b" (1, 1)).1
      (by rw [List.length_replicate]; exact Nat.le_refl 500),
    (geoCache_set_raises_at_capacity _ "b" (1, 1)).2 (by decide)⟩

/-! ### Claim C2 — atomic persistence -/

theorem append_tmp_ne (s : String) : s ++ ".tmp" ≠ s := by
  intro h
  have hlen := congrArg String.length h
  rw [String.length_append] at hlen
  have h4 : (".tmp" : String).length = 4 := rfl
  omega

theorem setFile_same (fs : FS) (p : String) (c : Option String) : setFile fs p c p = c := by
  simp [setFile]

theorem setFile_other (fs : FS) (p : String) (c : Option String) (q : String) (h : q ≠ p) :
    setFile fs p c q = fs q := by
  simp [setFile, h]

theorem applyOp_replace_dst (fs : FS) (src dst : String) :
    applyOp fs (.replace src dst) dst = fs src := by
  simp [applyOp]

/-- C2 (amended): `combine_geojson` persists atomically — any interruption of its
write-then-replace plan leaves the target path holding either its prior content or the
full new content, never a partial write.  `merge_geojson_data` and
`save_merged_geojson`, however, write the target file in place, so an interruption can
leave a partially written target (see the counterexample). -/
theorem combine_geojson_persist_atomic (fs : FS) (output_path content : String) (fs' : FS)
    (h : Interrupted fs (combine_geojson_persist_plan output_path content) fs') :
    fs' output_path = fs output_path ∨ fs' output_path = some content := by
  have hne : output_path ≠ output_path ++ ".tmp" :=
    fun hh => append_tmp_ne output_path hh.symm
  cases h with
  | stop => exact .inl rfl
  | midWrite _ _ _ _ pre hpre =>
    exact .inl (setFile_other _ _ _ _ hne)
  | step _ _ _ _ h2 =>
    cases h2 with
    | stop =>
      exact .inl (setFile_other _ _ _ _ hne)
    | step _ _ _ _ h3 =>
      cases h3 with
      | stop =>
        right
        rw [applyOp_replace_dst]
        exact setFile_same _ _ _

/-- C2 witness: the atomicity theorem applied to a concrete state, interrupted before
any operation ran. -/
theorem combine_geojson_persist_atomic_witness :
    (fun _ => (none : Option String)) "out.geojson" =
        (fun _ => (none : Option String)) "out.geojson" ∨
      (fun _ => (none : Option String)) "out.geojson" = some "data" :=
  combine_geojson_persist_atomic (fun _ => none) "out.geojson" "data" (fun _ => none)
    (Interrupted.stop _ _)

/-- The prior on-disk state for the C2 counterexample: the target file holds "OLD". -/
def fsOld : FS := fun q => if q = "masonic_alerts.geojson" then some "OLD" else none

/-- The interrupted state for the C2 counterexample: the in-place write of "NEW"
stopped after its first character. -/
def fsTorn : FS := setFile fsOld "masonic_alerts.geojson" (some "N")

/-- C2: counterexample.  The claim says persistence always writes to a temporary path
and atomically replaces the target, so an interrupted write leaves the prior file
intact.  `merge_geojson_data` (src/M357_MAP.py lines 270-271) opens the target itself
for writing: interrupting its single in-place write can leave the target holding a
strict partial prefix of the new content — neither the prior content nor the merged
result. -/
theorem merge_geojson_data_persist_not_atomic :
    Interrupted fsOld (merge_geojson_data_persist_plan "NEW") fsTorn ∧
      fsTorn "masonic_alerts.geojson" ≠ fsOld "masonic_alerts.geojson" ∧
      fsTorn "masonic_alerts.geojson" ≠ some "NEW" := by
  refine ⟨Interrupted.midWrite fsOld "masonic_alerts.geojson" "NEW" [] "N" (by decide), ?_, ?_⟩
  · show setFile fsOld "masonic_alerts.geojson" (some "N") "masonic_alerts.geojson" ≠ _
    simp only [setFile, if_pos rfl, fsOld, if_pos rfl]
    decide
  · show setFile fsOld "masonic_alerts.geojson" (some "N") "masonic_alerts.geojson" ≠ _
    simp only [setFile, if_pos rfl]
    decide

/-! ### Characterization of `enhanced_geocode` -/

theorem photonAttemptStep_success_valid (a : PhotonAttempt) (lon lat : Rat)
    (h : photonAttemptStep a = .success lon lat) : is_valid_coords lon lat = true := by
  cases a with
  | requestError => exact absurd h (by simp [photonAttemptStep])
  | response status features =>
    simp only [photonAttemptStep] at h
    by_cases hs : status = 200
    · rw [if_pos hs] at h
      cases features with
      | nil => exact absurd h (by simp)
      | cons c rest =>
        by_cases hv : is_valid_coords c.1 c.2 = true
        · have h' : PhotonStep.success c.1 c.2 = PhotonStep.success lon lat := by
            rw [← h]
            simp [hv]
          obtain ⟨h1, h2⟩ := PhotonStep.success.inj h'
          rw [← h1, ← h2]
          exact hv
        · have h' : PhotonStep.breakLoop = PhotonStep.success lon lat := by
            rw [← h]
            simp [hv]
          exact absurd h' (by simp)
    · rw [if_neg hs] at h
      exact absurd h (by simp)

theorem geoCacheSet_ok (cache : List (String × (Rat × Rat))) (k : String) (v : Rat × Rat)
    (cache' : List (String × (Rat × Rat)))
    (h : GeoCache.set cache k v = .ok cache') : cache' = dictInsert cache k v := by
  simp only [GeoCache.set] at h
  by_cases hl : cache.length ≥ GeoCache.maxSize
  · rw [if_pos hl] at h
    exact absurd h (by simp [dictPopitem])
  · rw [if_neg hl] at h
    exact (Except.ok.inj h).symm

theorem storeResult_success (cache : List (String × (Rat × Rat))) (location_text : String)
    (lon lat : Rat) (callsMade : List ProviderCall) (c : Rat × Rat)
    (cache' : List (String × (Rat × Rat))) (calls : List ProviderCall)
    (h : storeResult cache location_text lon lat callsMade = ⟨some c, cache', calls⟩) :
    c = (lon, lat) ∧ cache' = dictInsert cache location_text c := by
  simp only [storeResult] at h
  cases hset : GeoCache.set cache location_text (lon, lat) with
  | ok cache2 =>
    rw [hset] at h
    obtain ⟨h1, h2, h3⟩ := GeocodeResult.mk.inj h
    obtain rfl : c = (lon, lat) := (Option.some.inj h1).symm
    exact ⟨rfl, h2.symm.trans (geoCacheSet_ok _ _ _ _ hset)⟩
  | error e =>
    rw [hset] at h
    exact absurd (GeocodeResult.mk.inj h).1 (by simp)

theorem storeResult_none_cache (cache : List (String × (Rat × Rat))) (location_text : String)
    (lon lat : Rat) (callsMade : List ProviderCall)
    (cache' : List (String × (Rat × Rat))) (calls : List ProviderCall)
    (h : storeResult cache location_text lon lat callsMade = ⟨none, cache', calls⟩) :
    cache' = cache := by
  simp only [storeResult] at h
  cases hset : GeoCache.set cache location_text (lon, lat) with
  | ok cache2 =>
    rw [hset] at h
    exact absurd (GeocodeResult.mk.inj h).1 (by simp)
  | error e =>
    rw [hset] at h
    exact (GeocodeResult.mk.inj h).2.1.symm

theorem photonPhase_success (cache : List (String × (Rat × Rat))) (location_text : String)
    (env : GeocodeEnv) (calls0 : List ProviderCall) (c : Rat × Rat)
    (cache' : List (String × (Rat × Rat))) (calls : List ProviderCall)
    (h : photonPhase cache location_text env calls0 = ⟨some c, cache', calls⟩) :
    cache' = dictInsert cache location_text c ∧ is_valid_coords c.1 c.2 = true := by
  simp only [photonPhase] at h
  cases hstep1 : photonAttemptStep env.photon1 with
  | success lon lat =>
    rw [hstep1] at h
    have h2 : storeResult cache location_text lon lat (calls0 ++ [⟨.photon, false⟩]) =
        ⟨some c, cache', calls⟩ := h
    obtain ⟨hc, hins⟩ := storeResult_success _ _ _ _ _ _ _ _ h2
    subst hc
    exact ⟨hins, photonAttemptStep_success_valid _ _ _ hstep1⟩
  | breakLoop =>
    rw [hstep1] at h
    have h2 : (⟨none, cache, calls0 ++ [⟨.photon, false⟩]⟩ : GeocodeResult) =
        ⟨some c, cache', calls⟩ := h
    exact absurd (GeocodeResult.mk.inj h2).1 (by simp)
  | skip =>
    rw [hstep1] at h
    cases hstep2 : photonAttemptStep env.photon2 with
    | success lon lat =>
      rw [hstep2] at h
      have h2 : storeResult cache location_text lon lat
          (calls0 ++ [⟨.photon, false⟩, ⟨.photon, false⟩]) = ⟨some c, cache', calls⟩ := h
      obtain ⟨hc, hins⟩ := storeResult_success _ _ _ _ _ _ _ _ h2
      subst hc
      exact ⟨hins, photonAttemptStep_success_valid _ _ _ hstep2⟩
    | breakLoop =>
      rw [hstep2] at h
      have h2 : (⟨none, cache, calls0 ++ [⟨.photon, false⟩, ⟨.photon, false⟩]⟩ :
          GeocodeResult) = ⟨some c, cache', calls⟩ := h
      exact absurd (GeocodeResult.mk.inj h2).1 (by simp)
    | skip =>
      rw [hstep2] at h
      have h2 : (⟨none, cache, calls0 ++ [⟨.photon, false⟩, ⟨.photon, false⟩]⟩ :
          GeocodeResult) = ⟨some c, cache', calls⟩ := h
      exact absurd (GeocodeResult.mk.inj h2).1 (by simp)

theorem photonPhase_none_cache (cache : List (String × (Rat × Rat))) (location_text : String)
    (env : GeocodeEnv) (calls0 : List ProviderCall)
    (cache' : List (String × (Rat × Rat))) (calls : List ProviderCall)
    (h : photonPhase cache location_text env calls0 = ⟨none, cache', calls⟩) :
    cache' = cache := by
  simp only [photonPhase] at h
  cases hstep1 : photonAttemptStep env.photon1 with
  | success lon lat =>
    rw [hstep1] at h
    have h2 : storeResult cache location_text lon lat (calls0 ++ [⟨.photon, false⟩]) =
        ⟨none, cache', calls⟩ := h
    exact storeResult_none_cache _ _ _ _ _ _ _ h2
  | breakLoop =>
    rw [hstep1] at h
    have h2 : (⟨none, cache, calls0 ++ [⟨.photon, false⟩]⟩ : GeocodeResult) =
        ⟨none, cache', calls⟩ := h
    exact (GeocodeResult.mk.inj h2).2.1.symm
  | skip =>
    rw [hstep1] at h
    cases hstep2 : photonAttemptStep env.photon2 with
    | success lon lat =>
      rw [hstep2] at h
      have h2 : storeResult cache location_text lon lat
          (calls0 ++ [⟨.photon, false⟩, ⟨.photon, false⟩]) = ⟨none, cache', calls⟩ := h
      exact storeResult_none_cache _ _ _ _ _ _ _ h2
    | breakLoop =>
      rw [hstep2] at h
      have h2 : (⟨none, cache, calls0 ++ [⟨.photon, false⟩, ⟨.photon, false⟩]⟩ :
          GeocodeResult) = ⟨none, cache', calls⟩ := h
      exact (GeocodeResult.mk.inj h2).2.1.symm
    | skip =>
      rw [hstep2] at h
      have h2 : (⟨none, cache, calls0 ++ [⟨.photon, false⟩, ⟨.photon, false⟩]⟩ :
          GeocodeResult) = ⟨none, cache', calls⟩ := h
      exact (GeocodeResult.mk.inj h2).2.1.symm

theorem enhanced_geocode_success (cache : List (String × (Rat × Rat)))
    (location_text : String) (env : GeocodeEnv) (c : Rat × Rat)
    (cache' : List (String × (Rat × Rat))) (calls : List ProviderCall)
    (h : enhanced_geocode cache location_text env = ⟨some c, cache', calls⟩) :
    location_text ≠ "" ∧ dictLookup cache' location_text = some c ∧
      (cache' = cache ∧ dictLookup cache location_text = some c ∨
        cache' = dictInsert cache location_text c ∧ is_valid_coords c.1 c.2 = true) := by
  simp only [enhanced_geocode] at h
  by_cases hempty : location_text = ""
  · rw [if_pos hempty] at h
    exact absurd (GeocodeResult.mk.inj h).1 (by simp)
  · rw [if_neg hempty] at h
    refine ⟨hempty, ?_⟩
    cases hget : GeoCache.get cache location_text with
    | some c0 =>
      rw [hget] at h
      have h' : (⟨some c0, cache, []⟩ : GeocodeResult) = ⟨some c, cache', calls⟩ := h
      obtain ⟨h1, h2, h3⟩ := GeocodeResult.mk.inj h'
      obtain rfl : c = c0 := (Option.some.inj h1).symm
      rw [← h2]
      exact ⟨hget, .inl ⟨rfl, hget⟩⟩
    | none =>
      rw [hget] at h
      cases hnom : env.nominatim with
      | raised =>
        rw [hnom] at h
        have h' : (⟨none, cache, [⟨.nominatim, true⟩]⟩ : GeocodeResult) =
            ⟨some c, cache', calls⟩ := h
        exact absurd (GeocodeResult.mk.inj h').1 (by simp)
      | noResult =>
        rw [hnom] at h
        have h' : photonPhase cache location_text env [⟨.nominatim, true⟩] =
            ⟨some c, cache', calls⟩ := h
        obtain ⟨hc, hv⟩ := photonPhase_success _ _ _ _ _ _ _ h'
        rw [hc, dictLookup_insert, if_pos rfl]
        exact ⟨rfl, .inr ⟨rfl, hv⟩⟩
      | found lon lat =>
        rw [hnom] at h
        have hif : (if is_valid_coords lon lat = true then
              storeResult cache location_text lon lat [⟨.nominatim, true⟩]
            else photonPhase cache location_text env [⟨.nominatim, true⟩]) =
            ⟨some c, cache', calls⟩ := h
        by_cases hv : is_valid_coords lon lat = true
        · rw [if_pos hv] at hif
          obtain ⟨hc, hins⟩ := storeResult_success _ _ _ _ _ _ _ _ hif
          subst hc
          rw [hins, dictLookup_insert, if_pos rfl]
          exact ⟨rfl, .inr ⟨rfl, hv⟩⟩
        · rw [if_neg hv] at hif
          obtain ⟨hc, hvv⟩ := photonPhase_success _ _ _ _ _ _ _ hif
          rw [hc, dictLookup_insert, if_pos rfl]
          exact ⟨rfl, .inr ⟨rfl, hvv⟩⟩

theorem enhanced_geocode_none_cache (cache : List (String × (Rat × Rat)))
    (location_text : String) (env : GeocodeEnv)
    (cache' : List (String × (Rat × Rat))) (calls : List ProviderCall)
    (h : enhanced_geocode cache location_text env = ⟨none, cache', calls⟩) :
    cache' = cache := by
  simp only [enhanced_geocode] at h
  by_cases hempty : location_text = ""
  · rw [if_pos hempty] at h
    exact (GeocodeResult.mk.inj h).2.1.symm
  · rw [if_neg hempty] at h
    cases hget : GeoCache.get cache location_text with
    | some c0 =>
      rw [hget] at h
      have h' : (⟨some c0, cache, []⟩ : GeocodeResult) = ⟨none, cache', calls⟩ := h
      exact absurd (GeocodeResult.mk.inj h').1 (by simp)
    | none =>
      rw [hget] at h
      cases hnom : env.nominatim with
      | raised =>
        rw [hnom] at h
        have h' : (⟨none, cache, [⟨.nominatim, true⟩]⟩ : GeocodeResult) =
            ⟨none, cache', calls⟩ := h
        exact (GeocodeResult.mk.inj h').2.1.symm
      | noResult =>
        rw [hnom] at h
        exact photonPhase_none_cache _ _ _ _ _ _ h
      | found lon lat =>
        rw [hnom] at h
        have hif : (if is_valid_coords lon lat = true then
              storeResult cache location_text lon lat [⟨.nominatim, true⟩]
            else photonPhase cache location_text env [⟨.nominatim, true⟩]) =
            ⟨none, cache', calls⟩ := h
        by_cases hv : is_valid_coords lon lat = true
        · rw [if_pos hv] at hif
          exact storeResult_none_cache _ _ _ _ _ _ _ hif
        · rw [if_neg hv] at hif
          exact photonPhase_none_cache _ _ _ _ _ _ hif

/-! ### Claim C6 — coordinate validity -/

/-- Every coordinate pair stored in the cache passes `is_valid_coords`. -/
def validCache (cache : List (String × (Rat × Rat))) : Bool :=
  cache.all (fun p => is_valid_coords p.2.1 p.2.2)

/-- A resolver result is valid when absent or within range. -/
def validResult : Option (Rat × Rat) → Bool
  | none => true
  | some c => is_valid_coords c.1 c.2

theorem validCache_lookup (cache : List (String × (Rat × Rat))) (k : String) (c : Rat × Rat)
    (hv : validCache cache = true) (h : dictLookup cache k = some c) :
    is_valid_coords c.1 c.2 = true := by
  induction cache with
  | nil => exact absurd h (by simp [dictLookup])
  | cons p rest ih =>
    rw [validCache, List.all_cons, Bool.and_eq_true] at hv
    rw [dictLookup_cons] at h
    by_cases hp : p.1 = k
    · rw [if_pos hp] at h
      rw [← Option.some.inj h]
      exact hv.1
    · rw [if_neg hp] at h
      exact ih hv.2 h

theorem validCache_insert (cache : List (String × (Rat × Rat))) (k : String) (v : Rat × Rat)
    (hv : validCache cache = true) (hval : is_valid_coords v.1 v.2 = true) :
    validCache (dictInsert cache k v) = true := by
  rw [validCache, List.all_eq_true]
  intro p hp
  rcases mem_dictInsert _ _ _ _ hp with h | h
  · exact List.all_eq_true.mp hv p h
  · rw [h]
    exact hval

/-- C6 (amended): the src/M357_MAP.py pipeline upholds the coordinate-validity
invariant: starting from a cache whose entries are all in range, `enhanced_geocode`
only returns and only stores in-range coordinates (out-of-range provider output is
rejected by `is_valid_coords` and treated as no result), and `metadata_location` never
yields out-of-range coordinates.  `enhanced_geocoding` in src/wikipedia_scraper.py,
however, performs no range validation and stores invalid provider coordinates (see
the counterexample). -/
theorem enhanced_geocode_coordinate_validity (cache : List (String × (Rat × Rat)))
    (location_text : String) (env : GeocodeEnv) (e : RssEntry)
    (hv : validCache cache = true) :
    validResult (enhanced_geocode cache location_text env).result = true ∧
      validCache (enhanced_geocode cache location_text env).cache = true ∧
      validResult (metadata_location e) = true := by
  refine ⟨?_, ?_, ?_⟩
  · cases hres : enhanced_geocode cache location_text env with
    | mk result cache' calls =>
      cases result with
      | none => rfl
      | some c =>
        obtain ⟨_, _, hdisj⟩ := enhanced_geocode_success _ _ _ _ _ _ hres
        rcases hdisj with ⟨_, hl⟩ | ⟨_, hval⟩
        · exact validCache_lookup _ _ _ hv hl
        · exact hval
  · cases hres : enhanced_geocode cache location_text env with
    | mk result cache' calls =>
      cases result with
      | none =>
        rw [show cache' = cache from enhanced_geocode_none_cache _ _ _ _ _ hres]
        exact hv
      | some c =>
        obtain ⟨_, _, hdisj⟩ := enhanced_geocode_success _ _ _ _ _ _ hres
        rcases hdisj with ⟨hc, _⟩ | ⟨hc, hval⟩
        · rw [hc]
          exact hv
        · rw [hc]
          exact validCache_insert _ _ _ hv hval
  · cases hgeo : e.geo with
    | none => simp [metadata_location, hgeo, validResult]
    | some p =>
      obtain ⟨lat, lon⟩ := p
      simp only [metadata_location, hgeo]
      by_cases hvv : is_valid_coords lon lat = true
      · rw [if_pos hvv]
        exact hvv
      · rw [if_neg hvv]
        rfl

/-- C6 witness: the validity theorem applied at the empty cache, a concrete environment
in which Nominatim resolves the hint, and a concrete entry without geo metadata. -/
theorem enhanced_geocode_coordinate_validity_witness :
    validResult (enhanced_geocode [] "Madrid"
        ⟨.found (-4) 40, .requestError, .requestError⟩).result = true ∧
      validCache (enhanced_geocode [] "Madrid"
        ⟨.found (-4) 40, .requestError, .requestError⟩).cache = true ∧
      validResult (metadata_location ⟨"t", "l", "p", "s", "a", "src", none⟩) = true :=
  enhanced_geocode_coordinate_validity [] "Madrid"
    ⟨.found (-4) 40, .requestError, .requestError⟩ ⟨"t", "l", "p", "s", "a", "src", none⟩ rfl

/-- C6: counterexample.  The claim says every provider response with out-of-range
coordinates is treated as "no location" and never stored.  `enhanced_geocoding` in
src/wikipedia_scraper.py stores Photon's first feature without any range check: for a
response whose first feature has `lon = 200`, `lat = 95` (both out of range) it
returns the invalid point and writes it into the persistent location cache. -/
theorem wiki_enhanced_geocoding_stores_invalid :
    (wiki_enhanced_geocoding [] "Atlantis" (some [(200, 95)]) none).result =
        some (95, 200) ∧
      (wiki_enhanced_geocoding [] "Atlantis" (some [(200, 95)]) none).cache =
        [("Atlantis", (95, 200))] ∧
      is_valid_coords 200 95 = false := by
  refine ⟨by decide, by decide, by decide⟩

/-! ### Claim C7 — cache keying -/

theorem wiki_enhanced_geocoding_success (cache : List (String × (Rat × Rat)))
    (place_name : String) (pr nr : Option (List (Rat × Rat))) (c : Rat × Rat)
    (cache' : List (String × (Rat × Rat))) (queries : List String)
    (h : wiki_enhanced_geocoding cache place_name pr nr = ⟨some c, cache', queries⟩) :
    place_name ≠ "" ∧ dictLookup cache' place_name = some c := by
  simp only [wiki_enhanced_geocoding] at h
  by_cases hempty : place_name = ""
  · rw [if_pos hempty] at h
    exact absurd (WikiGeocodeResult.mk.inj h).1 (by simp)
  · rw [if_neg hempty] at h
    refine ⟨hempty, ?_⟩
    cases hget : dictLookup cache place_name with
    | some c0 =>
      rw [hget] at h
      have h' : (⟨some c0, cache, []⟩ : WikiGeocodeResult) = ⟨some c, cache', queries⟩ := h
      obtain ⟨h1, h2, _⟩ := WikiGeocodeResult.mk.inj h'
      rw [← h2, hget, Option.some.inj h1]
    | none =>
      rw [hget] at h
      cases pr with
      | some feats =>
        cases feats with
        | cons c0 rest =>
          have h' : (⟨some (c0.2, c0.1), dictInsert cache place_name (c0.2, c0.1),
              [cleanPlace place_name]⟩ : WikiGeocodeResult) = ⟨some c, cache', queries⟩ := h
          obtain ⟨h1, h2, _⟩ := WikiGeocodeResult.mk.inj h'
          rw [← h2, ← Option.some.inj h1, dictLookup_insert, if_pos rfl]
        | nil =>
          cases nr with
          | some js =>
            cases js with
            | cons j rest2 =>
              have h' : (⟨some j, dictInsert cache place_name j,
                  [cleanPlace place_name, cleanPlace place_name]⟩ : WikiGeocodeResult) =
                  ⟨some c, cache', queries⟩ := h
              obtain ⟨h1, h2, _⟩ := WikiGeocodeResult.mk.inj h'
              rw [← h2, ← Option.some.inj h1, dictLookup_insert, if_pos rfl]
            | nil =>
              have h' : (⟨none, cache, [cleanPlace place_name, cleanPlace place_name]⟩ :
                  WikiGeocodeResult) = ⟨some c, cache', queries⟩ := h
              exact absurd (WikiGeocodeResult.mk.inj h').1 (by simp)
          | none =>
            have h' : (⟨none, cache, [cleanPlace place_name, cleanPlace place_name]⟩ :
                WikiGeocodeResult) = ⟨some c, cache', queries⟩ := h
            exact absurd (WikiGeocodeResult.mk.inj h').1 (by simp)
      | none =>
        cases nr with
        | some js =>
          cases js with
          | cons j rest2 =>
            have h' : (⟨some j, dictInsert cache place_name j,
                [cleanPlace place_name, cleanPlace place_name]⟩ : WikiGeocodeResult) =
                ⟨some c, cache', queries⟩ := h
            obtain ⟨h1, h2, _⟩ := WikiGeocodeResult.mk.inj h'
            rw [← h2, ← Option.some.inj h1, dictLookup_insert, if_pos rfl]
          | nil =>
            have h' : (⟨none, cache, [cleanPlace place_name, cleanPlace place_name]⟩ :
                WikiGeocodeResult) = ⟨some c, cache', queries⟩ := h
            exact absurd (WikiGeocodeResult.mk.inj h').1 (by simp)
        | none =>
          have h' : (⟨none, cache, [cleanPlace place_name, cleanPlace place_name]⟩ :
              WikiGeocodeResult) = ⟨some c, cache', queries⟩ := h
          exact absurd (WikiGeocodeResult.mk.inj h').1 (by simp)

/-- C7 (amended): both resolvers key their cache by the RAW hint text, not its
normalized form.  Resolving the *identical* raw hint again therefore hits the cache —
the second resolution returns the same point with the cache unchanged and performs no
provider call — in `enhanced_geocode` (src/M357_MAP.py) and in `enhanced_geocoding`
(src/wikipedia_scraper.py) alike; but hints equal only up to the spec's normalization
use different cache keys, and each triggers its own provider call (see the
counterexample). -/
theorem cache_keyed_by_raw_hint (cache cacheW : List (String × (Rat × Rat)))
    (location_text place_name : String) (env env' : GeocodeEnv)
    (pr nr pr' nr' : Option (List (Rat × Rat))) (c cW : Rat × Rat)
    (cache' cacheW' : List (String × (Rat × Rat))) (calls : List ProviderCall)
    (queries : List String)
    (h1 : enhanced_geocode cache location_text env = ⟨some c, cache', calls⟩)
    (h2 : wiki_enhanced_geocoding cacheW place_name pr nr = ⟨some cW, cacheW', queries⟩) :
    enhanced_geocode cache' location_text env' = ⟨some c, cache', []⟩ ∧
      wiki_enhanced_geocoding cacheW' place_name pr' nr' = ⟨some cW, cacheW', []⟩ := by
  constructor
  · obtain ⟨hne, hlook, _⟩ := enhanced_geocode_success _ _ _ _ _ _ h1
    simp only [enhanced_geocode, GeoCache.get, if_neg hne, hlook]
  · obtain ⟨hne, hlook⟩ := wiki_enhanced_geocoding_success _ _ _ _ _ _ _ h2
    simp only [wiki_enhanced_geocoding, if_neg hne, hlook]

/-- The geocoding environment of the C7 witness and counterexample: Nominatim resolves
the hint to a valid point. -/
def envMadrid : GeocodeEnv := ⟨.found (-4) 40, .requestError, .requestError⟩

/-- C7 witness: the raw-key cache-hit theorem applied after concrete first
resolutions. -/
theorem cache_keyed_by_raw_hint_witness :
    enhanced_geocode [("Madrid", (-4, 40))] "Madrid" envMadrid =
        ⟨some (-4, 40), [("Madrid", (-4, 40))], []⟩ ∧
      wiki_enhanced_geocoding [("Lima", (-12, -77))] "Lima" none none =
        ⟨some (-12, -77), [("Lima", (-12, -77))], []⟩ :=
  cache_keyed_by_raw_hint [] [] "Madrid" "Lima" envMadrid envMadrid
    (some [(-77, -12)]) none none none (-4, 40) (-12, -77)
    [("Madrid", (-4, 40))] [("Lima", (-12, -77))] [⟨.nominatim, true⟩] ["Lima"]
    (by decide) (by decide)

/-- C7: counterexample.  "Madrid" and "Madrid (Spain)" have the same normalized form
under the spec's canonicalization (trim, strip parenthetical content, transliterate,
collapse whitespace), yet `enhanced_geocode` keys its cache by the raw hint: after
resolving "Madrid" (cached under the key "Madrid"), resolving "Madrid (Spain)" misses
the cache and performs a provider call instead of returning the cached point. -/
theorem normalized_equal_hints_miss_cache :
    specNormalizedHint "Madrid" = specNormalizedHint "Madrid (Spain)" ∧
      "Madrid" ≠ "Madrid (Spain)" ∧
      (enhanced_geocode [] "Madrid" envMadrid).cache = [("Madrid", (-4, 40))] ∧
      (enhanced_geocode [("Madrid", (-4, 40))] "Madrid (Spain)" envMadrid).calls =
        [⟨.nominatim, true⟩] := by
  refine ⟨by decide, by decide, by decide, by decide⟩

/-! ### Claim C10 — rate limiting of provider calls -/

theorem photonPhase_calls_tagging (cache : List (String × (Rat × Rat)))
    (location_text : String) (env : GeocodeEnv) (calls0 : List ProviderCall)
    (h : calls0.all (fun cl => cl.viaRateLimiter == decide (cl.provider = .nominatim)) = true) :
    ((photonPhase cache location_text env calls0).calls.all
      (fun cl => cl.viaRateLimiter == decide (cl.provider = .nominatim))) = true := by
  simp only [photonPhase]
  cases photonAttemptStep env.photon1 with
  | success lon lat =>
    simp only [storeResult]
    cases GeoCache.set cache location_text (lon, lat) with
    | ok cache2 => simp [List.all_append, h]
    | error e => simp [List.all_append, h]
  | breakLoop => simp [List.all_append, h]
  | skip =>
    cases photonAttemptStep env.photon2 with
    | success lon lat =>
      simp only [storeResult]
      cases GeoCache.set cache location_text (lon, lat) with
      | ok cache2 => simp [List.all_append, h]
      | error e => simp [List.all_append, h]
    | breakLoop => simp [List.all_append, h]
    | skip => simp [List.all_append, h]

/-- C10 (amended): only the primary (Nominatim) calls pass through the shared
`RateLimiter`-wrapped `geocode`; Photon fallback calls are issued directly with
`requests` and bypass it.  In every call trace `enhanced_geocode` produces, a call is
marked rate-limited exactly when its provider is Nominatim — so fallback calls are
never serialized by the limiter (see the counterexample). -/
theorem rate_limiter_covers_only_nominatim (cache : List (String × (Rat × Rat)))
    (location_text : String) (env : GeocodeEnv) :
    ((enhanced_geocode cache location_text env).calls.all
      (fun cl => cl.viaRateLimiter == decide (cl.provider = .nominatim))) = true := by
  simp only [enhanced_geocode]
  by_cases hempty : location_text = ""
  · rw [if_pos hempty]
    rfl
  · rw [if_neg hempty]
    cases GeoCache.get cache location_text with
    | some c0 => rfl
    | none =>
      cases env.nominatim with
      | raised => rfl
      | noResult => exact photonPhase_calls_tagging _ _ _ _ (by decide)
      | found lon lat =>
        show ((if is_valid_coords lon lat = true then
              storeResult cache location_text lon lat [⟨.nominatim, true⟩]
            else photonPhase cache location_text env [⟨.nominatim, true⟩]).calls.all
          (fun cl => cl.viaRateLimiter == decide (cl.provider = .nominatim))) = true
        by_cases hv : is_valid_coords lon lat = true
        · rw [if_pos hv]
          simp only [storeResult]
          cases GeoCache.set cache location_text (lon, lat) with
          | ok cache2 => rfl
          | error e => rfl
        · rw [if_neg hv]
          exact photonPhase_calls_tagging _ _ _ _ (by decide)

/-- C10: counterexample.  The claim says every outbound provider call — including
fallback calls — passes through the single shared rate limiter.  With a cache miss,
Nominatim returning no result and Photon answering on its first attempt,
`enhanced_geocode`'s trace contains a Photon fallback call made directly with
`requests`, not through the rate limiter. -/
theorem photon_fallback_bypasses_rate_limiter :
    (enhanced_geocode [] "Paris" ⟨.noResult, .response 200 [(2, 48)], .requestError⟩).calls =
        [⟨.nominatim, true⟩, ⟨.photon, false⟩] ∧
      ProviderCall.mk .photon false ∈
        (enhanced_geocode [] "Paris" ⟨.noResult, .response 200 [(2, 48)], .requestError⟩).calls ∧
      (ProviderCall.mk .photon false).viaRateLimiter = false := by
  refine ⟨by decide, by decide, rfl⟩

/-! ### Claim C4 — unresolved records are kept (or not) -/

/-- C4 (amended): `process_feed_entry` (src/M357_MAP.py) keeps a record none of whose
location hints resolves: when the metadata strategy and the content strategy both
yield nothing, the feature is still produced, with no geometry and with its properties
built exactly as for a located record.  `generate_geojson` (src/m357_map.py), by
contrast, silently drops such records from its GeoJSON output (see the
counterexample). -/
theorem unresolved_record_kept_without_geometry
    (contentLocation : RssEntry → Option (Rat × Rat)) (e : RssEntry)
    (h1 : metadata_location e = none) (h2 : contentLocation e = none) :
    process_feed_entry contentLocation e =
      { geometry := none
        title := pyStrip e.title
        link := e.link
        published := format_date e.published
        description :=
          if (stripTags e.summary).length > 500 then (stripTags e.summary).take 500 ++ "..."
          else stripTags e.summary
        author := e.author
        source := e.source } := by
  simp only [process_feed_entry, h1, h2]

/-- C4 witness: the theorem applied to a concrete entry with no geo metadata and a
content strategy that resolves nothing. -/
theorem unresolved_record_kept_without_geometry_witness :
    process_feed_entry (fun _ => none) ⟨" T ", "http://x", "2020", "sum", "au", "src", none⟩ =
      { geometry := none
        title := pyStrip " T "
        link := "http://x"
        published := format_date "2020"
        description :=
          if (stripTags "sum").length > 500 then (stripTags "sum").take 500 ++ "..."
          else stripTags "sum"
        author := "au"
        source := "src" } :=
  unresolved_record_kept_without_geometry (fun _ => none)
    ⟨" T ", "http://x", "2020", "sum", "au", "src", none⟩ rfl rfl

/-- The C4 counterexample entry: a source record whose location hints all failed to
resolve, so its `lat`/`lon` stayed `None`. -/
def unresolvedEntry : MasterEntry :=
  ⟨"Lodge news", "Some summary", "http://example.org/a", "2024-01-01", none, none, none⟩

/-- C4: counterexample.  The claim says a record none of whose hints resolves is still
kept in the run's output with no geometry.  `generate_geojson` (src/m357_map.py lines
134-137) only emits entries whose `lat` and `lon` are both set, so the unresolved
record is absent from the generated GeoJSON output entirely. -/
theorem generate_geojson_drops_unresolved :
    unresolvedEntry.lat = none ∧ unresolvedEntry.lon = none ∧
      generate_geojson [unresolvedEntry] = [] :=
  ⟨rfl, rfl, rfl⟩
